import Mathlib

/-!
Shallow embedding of `src/script.js` (client-side todo list manager).

The script keeps a module-level mutable array `todos`, a localStorage slot
`"todos:v1"`, the rendered list in the DOM, and raises `alert`s on some
remote failures.  We model that mutable context as an explicit `AppState`
record and each operation of the script as a state transformer.

Modelling conventions:
* `useFirebase()` (presence of `window.firebaseSubscribeTodos`) is the
  boolean field `AppState.useFirebase`; the remote adapter functions are
  assumed present whenever it is true (as in a correctly wired host page).
* The outcome of an awaited remote call is the explicit parameter
  `remoteOk : Bool` (`true` = the promise resolves, `false` = it rejects).
* `generateId()` mixes `Math.random()` and `Date.now()`; its output is the
  explicit parameter `freshId : String` supplied by the environment.
* localStorage holds strings; a stored string is either valid JSON —
  modelled by its parse, constructor `StoredValue.wellFormed` — or not
  (`StoredValue.malformed`, on which `JSON.parse` throws).  An absent or
  empty entry is `none`.
* The DOM list built by `renderTodos` is modelled by its content: the
  sorted copy of `todos`, field `AppState.rendered`.
* `alert(msg)` appends `msg` to `AppState.alerts`.
-/

namespace SarahTodo

/-- The todo entity, from the JSDoc typedef in `src/script.js` line 4:
`{ id: string, text: string, completed: boolean, priority: 'high'|'medium'|'low', createdAt?: number }`.
`priority` is `Option String` so that absent/undefined priority (possible in
remote snapshots and corrupt data, and handled by `||` defaults in the
source) is representable; `createdAt` is optional in the typedef. -/
structure Todo where
  id : String
  text : String
  completed : Bool
  priority : Option String
  createdAt : Option Int
  deriving DecidableEq, Repr

/-- JSON values, the data exchanged with `JSON.parse` / `JSON.stringify`. -/
inductive Json where
  | null
  | bool (b : Bool)
  | num (n : Int)
  | str (s : String)
  | arr (elems : List Json)
  | obj (fields : List (String × Json))

/-- A string held in localStorage: either valid JSON (represented by the
value it parses to) or syntactically invalid JSON (`JSON.parse` throws). -/
inductive StoredValue where
  | wellFormed (j : Json)
  | malformed

/-- The mutable context of the script (see module docstring). -/
structure AppState where
  useFirebase : Bool
  todos : List Todo
  storage : Option StoredValue
  rendered : List Todo
  alerts : List String

/-- JS `v || d` for an optional string `v` (undefined and `""` are falsy). -/
def jsOr (v : Option String) (d : String) : String :=
  match v with
  | none => d
  | some s => if s = "" then d else s

/-- JS `String.prototype.trim`, executably: drop leading and trailing
whitespace code points (source lines 101, 197 use `.trim()`). -/
def jsTrim (s : String) : String :=
  String.mk (((s.data.dropWhile Char.isWhitespace).reverse.dropWhile Char.isWhitespace).reverse)

/-- The lookup `order[key]` for `order = { high: 3, medium: 2, low: 1 }`
(source line 41); an unknown key yields `undefined` (`none`). -/
def priorityOrder (key : String) : Option Int :=
  if key = "high" then some 3
  else if key = "medium" then some 2
  else if key = "low" then some 1
  else none

/-- `order[a.priority || 'medium'] || 0` (source lines 42-43): absent or
empty priority falls back to `'medium'` before the lookup, and a failed
lookup (unrecognized key) falls back to rank `0`. -/
def priorityRank (p : Option String) : Int :=
  (priorityOrder (jsOr p "medium")).getD 0

/-- `compareTodos(a, b)` (source lines 39-48): incomplete before completed,
then higher priority rank first, then larger `createdAt` (absent as 0) first. -/
def compareTodos (a b : Todo) : Int :=
  if a.completed ≠ b.completed then (if a.completed then 1 else -1)
  else if priorityRank a.priority ≠ priorityRank b.priority then
    priorityRank b.priority - priorityRank a.priority
  else (b.createdAt.getD 0) - (a.createdAt.getD 0)

/-- The "a may stay before b" relation induced by the comparator, used by the
host's stable `Array.prototype.sort`. -/
def todoLe (a b : Todo) : Bool := compareTodos a b ≤ 0

/-- `[...todos].sort(compareTodos)` (source line 95): a stable sort of a copy
of the collection under `compareTodos`. -/
def sortTodos (l : List Todo) : List Todo := l.mergeSort todoLe

/-- `renderTodos()` (source lines 93-98): rebuilds the displayed list from a
freshly sorted copy of `todos`. -/
def renderTodos (s : AppState) : AppState := { s with rendered := sortTodos s.todos }

/-- `JSON.stringify` of one todo object: fields in creation order, with the
optional fields omitted when `undefined`. -/
def encodeTodo (t : Todo) : Json :=
  Json.obj ([("id", Json.str t.id), ("text", Json.str t.text), ("completed", Json.bool t.completed)]
    ++ (match t.priority with | none => [] | some p => [("priority", Json.str p)])
    ++ (match t.createdAt with | none => [] | some n => [("createdAt", Json.num n)]))

/-- Property lookup on a parsed JSON object. -/
def lookupField (fields : List (String × Json)) (key : String) : Option Json :=
  (fields.find? (fun f => f.1 = key)).map (fun f => f.2)

/-- The typed reading of a parsed JSON value as a `Todo` record
(inverse of `encodeTodo`); `none` when the value does not have the shape
of a todo object. -/
def decodeTodo : Json → Option Todo
  | Json.obj fields =>
    match lookupField fields "id", lookupField fields "text", lookupField fields "completed" with
    | some (Json.str i), some (Json.str tx), some (Json.bool c) =>
      some { id := i, text := tx, completed := c,
             priority := match lookupField fields "priority" with
               | some (Json.str p) => some p
               | _ => none,
             createdAt := match lookupField fields "createdAt" with
               | some (Json.num n) => some n
               | _ => none }
    | _, _, _ => none
  | _ => none

/-- Elementwise typed reading of a parsed JSON array's elements. -/
def decodeTodoList : List Json → Option (List Todo)
  | [] => some []
  | j :: js =>
    match decodeTodo j, decodeTodoList js with
    | some t, some ts => some (t :: ts)
    | _, _ => none

/-- The typed reading of a parsed JSON value as a todo array; `none` when it
is not an array of todo objects. -/
def decodeTodos : Json → Option (List Todo)
  | Json.arr elems => decodeTodoList elems
  | _ => none

/-- The value `raw ? JSON.parse(raw) : []` evaluates to inside the
`try`/`catch` of `loadTodos` (source lines 23-27): an absent/empty entry
gives `[]`, a string on which `JSON.parse` throws is caught giving `[]`,
and any valid JSON string gives its parse — with no validation that the
result is an array of todos. -/
def loadResult : Option StoredValue → Json
  | none => Json.arr []
  | some StoredValue.malformed => Json.arr []
  | some (StoredValue.wellFormed j) => j

/-- `loadTodos()` (source lines 20-28): no-op in Firebase mode; otherwise
assigns the parsed stored value to `todos`.  The source assigns the raw
parsed value without validation; in this typed model the value is read back
through `decodeTodo` (lossless for anything `saveTodos` wrote — see the
round-trip lemmas; for valid JSON that is not a todo array the source
assigns the raw value verbatim, see `loadResult`). -/
def loadTodos (s : AppState) : AppState :=
  if s.useFirebase then s
  else { s with todos := (decodeTodos (loadResult s.storage)).getD [] }

/-- `saveTodos()` (source lines 30-33): no-op in Firebase mode; otherwise
overwrites the storage entry with `JSON.stringify(todos)`. -/
def saveTodos (s : AppState) : AppState :=
  if s.useFirebase then s
  else { s with storage := some (StoredValue.wellFormed (Json.arr (s.todos.map encodeTodo))) }

/-- Alert text of source line 125 (delete failure). -/
def alertDeleteFailed : String := "삭제에 실패했습니다. 나중에 다시 시도하세요."

/-- Alert text of source line 141 (toggle failure). -/
def alertToggleFailed : String := "상태 변경에 실패했습니다. 나중에 다시 시도하세요."

/-- Alert text of source line 208 (edit failure). -/
def alertEditFailed : String := "수정에 실패했습니다. 나중에 다시 시도하세요."

/-- `addTodo(text)` (source lines 100-117).  `sel` is `priorityEl.value`
(empty when the selector is missing or blank, making `'medium'` the
default), `freshId` the value `generateId()` returns on this call, and
`remoteOk` the outcome of `window.firebaseAddTodo` when it is called.
On a rejected remote add the `catch` block is empty and control falls
through to the local path ("fallthrough to local if needed"), which
prepends the new item (note: no `createdAt` field is set), then calls
`saveTodos` (a no-op in Firebase mode) and `renderTodos`. -/
def addTodo (text sel freshId : String) (remoteOk : Bool) (s : AppState) : AppState :=
  let trimmed := jsTrim text
  if trimmed = "" then s
  else
    let priority := if sel = "" then "medium" else sel
    if s.useFirebase && remoteOk then s
    else
      renderTodos (saveTodos { s with todos :=
        { id := freshId, text := trimmed, completed := false,
          priority := some priority, createdAt := none } :: s.todos })

/-- `deleteTodo(id)` (source lines 119-133): in Firebase mode a resolved
remove returns (rendering deferred to the subscription) and a rejected one
alerts and returns; in local mode the matching entities are filtered out,
then save and render. -/
def deleteTodo (id : String) (remoteOk : Bool) (s : AppState) : AppState :=
  if s.useFirebase then
    if remoteOk then s
    else { s with alerts := s.alerts ++ [alertDeleteFailed] }
  else
    renderTodos (saveTodos { s with todos := s.todos.filter (fun t => t.id ≠ id) })

/-- The in-place mutation `t.completed = completed` of the first entity
`todos.find((x) => x.id === id)` returns (source lines 145-147). -/
def setCompletedFirst (id : String) (completed : Bool) : List Todo → List Todo
  | [] => []
  | t :: ts =>
    if t.id = id then { t with completed := completed } :: ts
    else t :: setCompletedFirst id completed ts

/-- `toggleCompleted(id, completed)` (source lines 135-150): in Firebase
mode a resolved update returns and a rejected one alerts and returns; in
local mode, if no entity matches the function returns before saving,
otherwise the first match's `completed` field is mutated in place, then
save and render. -/
def toggleCompleted (id : String) (completed remoteOk : Bool) (s : AppState) : AppState :=
  if s.useFirebase then
    if remoteOk then s
    else { s with alerts := s.alerts ++ [alertToggleFailed] }
  else
    match s.todos.find? (fun t => t.id = id) with
    | none => s
    | some _ => renderTodos (saveTodos { s with todos := setCompletedFirst id completed s.todos })

/-- `newPriority || t.priority || 'medium'` (source line 216). -/
def editPriority (newPriority : String) (old : Option String) : String :=
  if newPriority = "" then jsOr old "medium" else newPriority

/-- The in-place mutation of source lines 215-216 on the first entity whose
id matches: `t.text = trimmed; t.priority = newPriority || t.priority || 'medium'`. -/
def updateFirst (id trimmed newPriority : String) : List Todo → List Todo
  | [] => []
  | t :: ts =>
    if t.id = id then
      { t with text := trimmed, priority := some (editPriority newPriority t.priority) } :: ts
    else t :: updateFirst id trimmed newPriority ts

/-- `commitEdit(id, newText, newPriority)` (source lines 196-219): an empty
trimmed text delegates to `deleteTodo`; otherwise in Firebase mode a
resolved update returns and a rejected one alerts and returns; in local
mode, if no entity matches the function returns, otherwise the first
match's text and priority are mutated in place, then save and render. -/
def commitEdit (id newText newPriority : String) (remoteOk : Bool) (s : AppState) : AppState :=
  let trimmed := jsTrim newText
  if trimmed = "" then deleteTodo id remoteOk s
  else if s.useFirebase then
    if remoteOk then s
    else { s with alerts := s.alerts ++ [alertEditFailed] }
  else
    match s.todos.find? (fun t => t.id = id) with
    | none => s
    | some _ =>
      renderTodos (saveTodos { s with todos := updateFirst id trimmed newPriority s.todos })

/-- The normalization `{ ...t, priority: t.priority || 'medium' }` applied
to each snapshot item (source line 235). -/
def normalizeSnapshotTodo (t : Todo) : Todo := { t with priority := some (jsOr t.priority "medium") }

/-- The subscription callback of `startFirebaseMode` (source lines 233-237):
replaces `todos` with the normalized, sorted snapshot and re-renders. -/
def applySnapshot (items : List Todo) (s : AppState) : AppState :=
  renderTodos { s with todos := sortTodos (items.map normalizeSnapshotTodo) }

/-- `startFirebaseMode()` (source lines 229-238): clears the storage entry,
empties `todos`, re-renders, and subscribes (subsequent snapshot deliveries
are `applySnapshot` steps). -/
def startFirebaseMode (s : AppState) : AppState :=
  renderTodos { s with useFirebase := true, storage := none, todos := [] }

/-- The state before the init code at the bottom of the script runs, in a
fresh environment: local mode, no todos, no storage entry. -/
def initState : AppState :=
  { useFirebase := false, todos := [], storage := none, rendered := [], alerts := [] }

/-- States reachable from a fresh start by the script's operations.  The
environment-supplied inputs carry the assumptions the spec makes about the
environment: each `generateId()` result is fresh for the current collection,
and remote snapshots (ids assigned by the backend) carry pairwise distinct
ids. -/
inductive Reachable : AppState → Prop where
  | init : Reachable initState
  | add (text sel freshId : String) (remoteOk : Bool) {s : AppState} :
      Reachable s → freshId ∉ s.todos.map Todo.id →
      Reachable (addTodo text sel freshId remoteOk s)
  | del (id : String) (remoteOk : Bool) {s : AppState} :
      Reachable s → Reachable (deleteTodo id remoteOk s)
  | toggle (id : String) (completed remoteOk : Bool) {s : AppState} :
      Reachable s → Reachable (toggleCompleted id completed remoteOk s)
  | edit (id newText newPriority : String) (remoteOk : Bool) {s : AppState} :
      Reachable s → Reachable (commitEdit id newText newPriority remoteOk s)
  | load {s : AppState} : Reachable s → Reachable (loadTodos s)
  | snapshot (items : List Todo) {s : AppState} :
      Reachable s → (items.map Todo.id).Nodup → Reachable (applySnapshot items s)
  | goRemote {s : AppState} : Reachable s → Reachable (startFirebaseMode s)

/-! ## Comparator lemmas -/

/-- The completion component of the comparator's key: completed items rank 1,
incomplete items rank 0. -/
def completedKey (t : Todo) : Int := if t.completed then 1 else 0

theorem compareTodos_antisymm (a b : Todo) : compareTodos b a = - compareTodos a b := by
  unfold compareTodos
  cases ha : a.completed <;> cases hb : b.completed <;> simp [ha, hb] <;> split_ifs <;> omega

theorem compareTodos_lt_iff (a b : Todo) : compareTodos a b < 0 ↔
    (completedKey a < completedKey b ∨
      (completedKey a = completedKey b ∧
        (priorityRank b.priority < priorityRank a.priority ∨
          (priorityRank a.priority = priorityRank b.priority ∧
            b.createdAt.getD 0 < a.createdAt.getD 0)))) := by
  unfold compareTodos completedKey
  cases ha : a.completed <;> cases hb : b.completed <;> simp [ha, hb] <;> split_ifs <;> omega

theorem compareTodos_le_iff (a b : Todo) : compareTodos a b ≤ 0 ↔
    (completedKey a < completedKey b ∨
      (completedKey a = completedKey b ∧
        (priorityRank b.priority < priorityRank a.priority ∨
          (priorityRank a.priority = priorityRank b.priority ∧
            b.createdAt.getD 0 ≤ a.createdAt.getD 0)))) := by
  unfold compareTodos completedKey
  cases ha : a.completed <;> cases hb : b.completed <;> simp [ha, hb] <;> split_ifs <;> omega

theorem todoLe_trans : ∀ a b c : Todo, todoLe a b = true → todoLe b c = true → todoLe a c = true := by
  intro a b c hab hbc
  simp only [todoLe, decide_eq_true_eq] at hab hbc ⊢
  rw [compareTodos_le_iff] at hab hbc ⊢
  omega

theorem todoLe_total : ∀ a b : Todo, (todoLe a b || todoLe b a) = true := by
  intro a b
  simp only [todoLe, Bool.or_eq_true, decide_eq_true_eq]
  have h := compareTodos_antisymm a b
  omega

theorem sortTodos_sorted (l : List Todo) :
    (sortTodos l).Pairwise (fun a b => todoLe a b = true) :=
  List.sorted_mergeSort todoLe_trans todoLe_total l

theorem sortTodos_perm (l : List Todo) : (sortTodos l).Perm l :=
  List.mergeSort_perm l todoLe

/-- In the rendered (sorted) list, an element strictly smaller under the
comparator occupies an earlier position. -/
theorem sortTodos_before {l : List Todo} {x y : Todo} (hxy : compareTodos x y < 0) (hne : x ≠ y)
    {i j : Nat} (hi : i < (sortTodos l).length) (hj : j < (sortTodos l).length)
    (hx : (sortTodos l)[i] = x) (hy : (sortTodos l)[j] = y) : i < j := by
  rcases Nat.lt_trichotomy i j with h | h | h
  · exact h
  · subst h
    exact absurd (hx.symm.trans hy) hne
  · exfalso
    have hp := sortTodos_sorted l
    rw [List.pairwise_iff_getElem] at hp
    have hle := hp j i hj hi h
    rw [hy, hx] at hle
    simp only [todoLe, decide_eq_true_eq] at hle
    have := compareTodos_antisymm x y
    omega

/-- `sortTodos_before` stated against any list known to be a sorted render
output, convenient for rewriting-free use. -/
theorem sorted_render_before {m r : List Todo} (hrm : r = sortTodos m) {x y : Todo}
    (hxy : compareTodos x y < 0) (hne : x ≠ y) {i j : Nat} (hi : i < r.length)
    (hj : j < r.length) (hx : r[i] = x) (hy : r[j] = y) : i < j := by
  subst hrm
  exact sortTodos_before hxy hne hi hj hx hy

/-! ## Sample todos used by concrete witnesses and counterexamples -/

/-- Concrete incomplete high-priority todo. -/
def highTodo : Todo :=
  { id := "h1", text := "a", completed := false, priority := some "high", createdAt := none }

/-- Concrete incomplete medium-priority todo. -/
def mediumTodo : Todo :=
  { id := "m1", text := "b", completed := false, priority := some "medium", createdAt := none }

/-- Concrete incomplete low-priority todo. -/
def lowTodo : Todo :=
  { id := "l1", text := "c", completed := false, priority := some "low", createdAt := none }

/-- Concrete todo carrying an unrecognized priority value. -/
def urgentTodo : Todo :=
  { id := "u1", text := "d", completed := false, priority := some "urgent", createdAt := none }

/-- Concrete todo with absent priority. -/
def noPrioTodo : Todo :=
  { id := "n1", text := "e", completed := false, priority := none, createdAt := none }

/-- Concrete state in Remote Mode with an empty collection. -/
def remoteState0 : AppState :=
  { useFirebase := true, todos := [], storage := none, rendered := [], alerts := [] }

/-- Concrete state in Remote Mode holding one todo, already rendered. -/
def remoteState1 : AppState :=
  { useFirebase := true, todos := [highTodo], storage := none, rendered := [highTodo],
    alerts := [] }

/-! ## Claim theorems -/

/-- Claim C4: sorting by the display comparator is idempotent, and the
comparator's strict ordering (`compareTodos a b < 0`, "a sorts before b")
is transitive. -/
theorem sort_idempotent_and_comparator_transitive :
    (∀ l : List Todo, sortTodos (sortTodos l) = sortTodos l) ∧
    (∀ a b c : Todo, compareTodos a b < 0 → compareTodos b c < 0 → compareTodos a c < 0) := by
  constructor
  · intro l
    exact List.mergeSort_of_sorted (sortTodos_sorted l)
  · intro a b c hab hbc
    rw [compareTodos_lt_iff] at hab hbc ⊢
    omega

/-- Witness for C4 at concrete inputs. -/
theorem sort_idempotent_and_comparator_transitive_witness :
    sortTodos (sortTodos [highTodo, lowTodo]) = sortTodos [highTodo, lowTodo] ∧
    compareTodos highTodo lowTodo < 0 :=
  ⟨sort_idempotent_and_comparator_transitive.1 [highTodo, lowTodo],
   sort_idempotent_and_comparator_transitive.2 highTodo mediumTodo lowTodo
     (by decide) (by decide)⟩

/-- Claim C3 counterexample: a todo with the unrecognized priority value
`"urgent"` is ranked 0 (not 2 as a medium todo would be) and sorts after a
low-priority todo in the same completion state, contradicting "ranks the
same as medium, so it sorts above low". -/
theorem unrecognized_priority_not_medium_cex :
    priorityRank (some "urgent") = 0 ∧ priorityRank (some "medium") = 2 ∧
    compareTodos urgentTodo lowTodo = 1 ∧ compareTodos lowTodo urgentTodo = -1 := by
  decide

/-- Claim C3 (amended): within the same completion state, a todo whose
priority field is absent ranks as medium (rank 2) — above low, below high,
tied with medium — but a todo whose priority holds an unrecognized
non-empty value ranks 0 and sorts below low. -/
theorem priority_rank_amended (a b : Todo) (hc : a.completed = b.completed) :
    (a.priority = none →
      priorityRank a.priority = 2 ∧
      (b.priority = some "low" → compareTodos a b = -1) ∧
      (b.priority = some "high" → compareTodos a b = 1) ∧
      (b.priority = some "medium" →
        compareTodos a b = b.createdAt.getD 0 - a.createdAt.getD 0)) ∧
    (∀ p, a.priority = some p → p ≠ "" → p ≠ "high" → p ≠ "medium" → p ≠ "low" →
      priorityRank a.priority = 0 ∧
      (b.priority = some "low" → compareTodos a b = 1)) := by
  constructor
  · intro ha
    refine ⟨by simp [ha, priorityRank, jsOr, priorityOrder], ?_, ?_, ?_⟩
    all_goals intro hb
    all_goals simp [compareTodos, hc, ha, hb, priorityRank, jsOr, priorityOrder]
  · intro p hp h0 h1 h2 h3
    have hr : priorityRank a.priority = 0 := by
      simp [hp, priorityRank, jsOr, priorityOrder, h0, h1, h2, h3]
    refine ⟨hr, ?_⟩
    intro hb
    have hrb : priorityRank b.priority = 1 := by
      simp [hb, priorityRank, jsOr, priorityOrder]
    simp [compareTodos, hc, hr, hrb]

/-- Witness for C3 (amended) at concrete inputs. -/
theorem priority_rank_amended_witness :
    priorityRank noPrioTodo.priority = 2 ∧ compareTodos noPrioTodo lowTodo = -1 ∧
    priorityRank urgentTodo.priority = 0 ∧ compareTodos urgentTodo lowTodo = 1 :=
  ⟨((priority_rank_amended noPrioTodo lowTodo rfl).1 rfl).1,
   ((priority_rank_amended noPrioTodo lowTodo rfl).1 rfl).2.1 rfl,
   ((priority_rank_amended urgentTodo lowTodo rfl).2 "urgent" rfl
      (by decide) (by decide) (by decide) (by decide)).1,
   ((priority_rank_amended urgentTodo lowTodo rfl).2 "urgent" rfl
      (by decide) (by decide) (by decide) (by decide)).2 rfl⟩

/-- Claim C8: `commitEdit` on a text that trims to empty is the same state
transformer as `deleteTodo`, in both modes and for both remote outcomes:
same resulting collection, storage, rendered list, and alerts. -/
theorem commitEdit_empty_text_is_delete (id newText newPriority : String) (remoteOk : Bool)
    (s : AppState) (h : jsTrim newText = "") :
    commitEdit id newText newPriority remoteOk s = deleteTodo id remoteOk s := by
  simp [commitEdit, h]

/-- Witness for C8 at a concrete whitespace-only text. -/
theorem commitEdit_empty_text_is_delete_witness :
    commitEdit "x" "   " "high" false remoteState1 = deleteTodo "x" false remoteState1 :=
  commitEdit_empty_text_is_delete "x" "   " "high" false remoteState1 (by decide)

/-- Claim C7: in Remote Mode a failed remove leaves the collection, the
rendered list and the storage unchanged and appends the delete-failure
alert. -/
theorem deleteTodo_remote_failure (id : String) (s : AppState) (hm : s.useFirebase = true) :
    (deleteTodo id false s).todos = s.todos ∧
    (deleteTodo id false s).rendered = s.rendered ∧
    (deleteTodo id false s).storage = s.storage ∧
    (deleteTodo id false s).alerts = s.alerts ++ [alertDeleteFailed] := by
  simp [deleteTodo, hm]

/-- Witness for C7 at a concrete Remote Mode state holding one todo. -/
theorem deleteTodo_remote_failure_witness :
    (deleteTodo "h1" false remoteState1).todos = remoteState1.todos ∧
    (deleteTodo "h1" false remoteState1).rendered = remoteState1.rendered ∧
    (deleteTodo "h1" false remoteState1).storage = remoteState1.storage ∧
    (deleteTodo "h1" false remoteState1).alerts = remoteState1.alerts ++ [alertDeleteFailed] :=
  deleteTodo_remote_failure "h1" remoteState1 rfl

/-- Claim C1 counterexample: in Remote Mode with a failing adapter `add`,
the in-memory collection and the rendered list do change — the empty catch
block falls through to the local path, which prepends the item and
re-renders (`saveTodos` is the only step that no-ops in Remote Mode). -/
theorem remote_add_failure_changes_state_cex :
    (addTodo "Buy milk" "high" "f1" false remoteState0).todos =
      [{ id := "f1", text := "Buy milk", completed := false, priority := some "high",
         createdAt := none }] ∧
    remoteState0.todos = [] ∧
    (addTodo "Buy milk" "high" "f1" false remoteState0).rendered =
      [{ id := "f1", text := "Buy milk", completed := false, priority := some "high",
         createdAt := none }] ∧
    remoteState0.rendered = [] := by
  refine ⟨?_, rfl, ?_, rfl⟩ <;>
    simp [addTodo, remoteState0, renderTodos, saveTodos, sortTodos, jsTrim,
      List.mergeSort_singleton]

/-- Claim C1 (amended): in Remote Mode, when the adapter's `add` call fails,
no user-facing error notification is raised, but the attempt is not
dropped: the item (with the locally generated id, the trimmed text, the
selected priority and no `createdAt`) is prepended to the in-memory
collection and the list is re-rendered; only local persistence is skipped
(the storage entry is unchanged). -/
theorem addTodo_remote_failure (text sel freshId : String) (s : AppState)
    (hm : s.useFirebase = true) (ht : jsTrim text ≠ "") :
    (addTodo text sel freshId false s).todos =
      { id := freshId, text := jsTrim text, completed := false,
        priority := some (if sel = "" then "medium" else sel), createdAt := none } :: s.todos ∧
    (addTodo text sel freshId false s).storage = s.storage ∧
    (addTodo text sel freshId false s).alerts = s.alerts ∧
    (addTodo text sel freshId false s).rendered =
      sortTodos ({ id := freshId, text := jsTrim text, completed := false,
                   priority := some (if sel = "" then "medium" else sel),
                   createdAt := none } :: s.todos) := by
  simp [addTodo, ht, hm, renderTodos, saveTodos]

/-- Witness for C1 (amended) at a concrete Remote Mode state. -/
theorem addTodo_remote_failure_witness :
    (addTodo "Buy milk" "high" "f1" false remoteState0).storage = remoteState0.storage ∧
    (addTodo "Buy milk" "high" "f1" false remoteState0).alerts = remoteState0.alerts :=
  ⟨(addTodo_remote_failure "Buy milk" "high" "f1" remoteState0 rfl (by decide)).2.1,
   (addTodo_remote_failure "Buy milk" "high" "f1" remoteState0 rfl (by decide)).2.2.1⟩

/-! ## Serialization round-trip -/

theorem decodeTodo_encodeTodo (t : Todo) : decodeTodo (encodeTodo t) = some t := by
  cases t with
  | mk i tx c p ca => cases p <;> cases ca <;> rfl

theorem decodeTodos_encode (l : List Todo) :
    decodeTodos (Json.arr (l.map encodeTodo)) = some l := by
  induction l with
  | nil => rfl
  | cons t ts ih =>
    simp only [decodeTodos, List.map_cons, decodeTodoList, decodeTodo_encodeTodo] at *
    simp [ih]

/-- Concrete state in Local Mode holding one todo, already rendered. -/
def localState1 : AppState :=
  { useFirebase := false, todos := [mediumTodo], storage := none, rendered := [mediumTodo],
    alerts := [] }

/-- Claim C5: in Local Mode, loading immediately after saving restores the
collection field-for-field, in the same insertion order. -/
theorem local_load_after_save (s : AppState) (hm : s.useFirebase = false) :
    (loadTodos (saveTodos s)).todos = s.todos := by
  simp [saveTodos, loadTodos, hm, loadResult, decodeTodos_encode]

/-- Witness for C5 at a concrete Local Mode state. -/
theorem local_load_after_save_witness :
    (loadTodos (saveTodos localState1)).todos = localState1.todos :=
  local_load_after_save localState1 rfl

/-- Claim C9 (documenting the code bug): a stored entry that is valid JSON
but not an array of todo records — here the JSON number `42` — is not
turned into an empty sequence: the value `raw ? JSON.parse(raw) : []`
assigned to `todos` is the number itself, which is not a todo array at all
(`decodeTodos` rejects it), contradicting the `@type {Todo[]}` annotation
and the spec's "returns an empty sequence rather than failing". -/
theorem load_valid_json_non_array_not_empty :
    loadResult (some (StoredValue.wellFormed (Json.num 42))) = Json.num 42 ∧
    decodeTodos (Json.num 42) = none :=
  ⟨rfl, rfl⟩

/-! ## Local add (C2) -/

/-- Claim C2 counterexample: the entity created by a Local Mode add carries
no `createdAt` field at all — the object literal in `addTodo` omits it —
refuting "a numeric creation timestamp (createdAt)". -/
theorem addTodo_local_no_createdAt_cex :
    ((addTodo "Buy milk" "high" "f1" true initState).todos.map Todo.createdAt) = [none] := by
  have h : jsTrim "Buy milk" = "Buy milk" := by decide
  simp [addTodo, h, initState, renderTodos, saveTodos]

/-- Claim C2 (amended): in Local Mode, adding a text whose trim is non-empty
with a non-empty selector value prepends exactly one new entity with
`completed = false`, the given priority, the freshly generated id (unique in
the new collection when it avoids the existing ids) and no `createdAt`
(the object literal omits the timestamp), then persists the new collection
and re-renders; when the priority is `high`, the new item appears before
every existing incomplete medium/low item in the rendered list. -/
theorem addTodo_local_spec (text sel freshId : String) (remoteOk : Bool) (s : AppState)
    (hm : s.useFirebase = false) (ht : jsTrim text ≠ "") (hsel : sel ≠ "")
    (hfresh : freshId ∉ s.todos.map Todo.id) (hnodup : (s.todos.map Todo.id).Nodup) :
    (addTodo text sel freshId remoteOk s).todos =
      { id := freshId, text := jsTrim text, completed := false,
        priority := some sel, createdAt := none } :: s.todos ∧
    ((addTodo text sel freshId remoteOk s).todos.map Todo.id).Nodup ∧
    (addTodo text sel freshId remoteOk s).storage =
      some (StoredValue.wellFormed
        (Json.arr ((addTodo text sel freshId remoteOk s).todos.map encodeTodo))) ∧
    (addTodo text sel freshId remoteOk s).rendered =
      sortTodos ((addTodo text sel freshId remoteOk s).todos) ∧
    (sel = "high" → ∀ t ∈ s.todos, t.completed = false →
      (t.priority = some "medium" ∨ t.priority = some "low") →
      ∀ i j, ∀ hi : i < (addTodo text sel freshId remoteOk s).rendered.length,
        ∀ hj : j < (addTodo text sel freshId remoteOk s).rendered.length,
        (addTodo text sel freshId remoteOk s).rendered[i] =
          { id := freshId, text := jsTrim text, completed := false,
            priority := some sel, createdAt := none } →
        (addTodo text sel freshId remoteOk s).rendered[j] = t → i < j) := by
  have hcond : (s.useFirebase && remoteOk) = false := by simp [hm]
  have hT : (addTodo text sel freshId remoteOk s).todos =
      { id := freshId, text := jsTrim text, completed := false,
        priority := some sel, createdAt := none } :: s.todos := by
    simp [addTodo, ht, hcond, hsel, renderTodos, saveTodos, hm]
  have hR : (addTodo text sel freshId remoteOk s).rendered =
      sortTodos ({ id := freshId, text := jsTrim text, completed := false,
                   priority := some sel, createdAt := none } :: s.todos) := by
    simp [addTodo, ht, hcond, hsel, renderTodos, saveTodos, hm]
  refine ⟨hT, ?_, ?_, ?_, ?_⟩
  · rw [hT]
    exact List.nodup_cons.2 ⟨hfresh, hnodup⟩
  · rw [hT]
    simp [addTodo, ht, hcond, hsel, renderTodos, saveTodos, hm]
  · rw [hT, hR]
  · intro hhigh t htmem htc htp i j hi hj hxi hxj
    have hr2 : priorityRank t.priority < priorityRank (some sel) := by
      subst hhigh
      rcases htp with hp | hp <;> rw [hp] <;> decide
    have hlt : compareTodos
        { id := freshId, text := jsTrim text, completed := false,
          priority := some sel, createdAt := none } t < 0 := by
      rw [compareTodos_lt_iff]
      refine Or.inr ⟨?_, Or.inl ?_⟩
      · simp [completedKey, htc]
      · exact hr2
    have hne : ({ id := freshId, text := jsTrim text, completed := false,
                  priority := some sel, createdAt := none } : Todo) ≠ t := by
      intro he
      apply hfresh
      rw [List.mem_map]
      exact ⟨t, htmem, by rw [← he]⟩
    exact sorted_render_before hR hlt hne hi hj hxi hxj

/-- Witness for C2 (amended) at a concrete Local Mode state holding one
medium-priority todo. -/
theorem addTodo_local_spec_witness :
    (addTodo "Buy milk" "high" "f9" true localState1).todos =
      { id := "f9", text := jsTrim "Buy milk", completed := false,
        priority := some "high", createdAt := none } :: localState1.todos :=
  (addTodo_local_spec "Buy milk" "high" "f9" true localState1 rfl (by decide) (by decide)
    (by decide) (by decide)).1

/-! ## Toggle frame (C10) -/

theorem setCompletedFirst_eq_set (id : String) (c : Bool) :
    ∀ (l : List Todo) (t : Todo), l.find? (fun u => u.id = id) = some t →
    ∃ i, ∃ hi : i < l.length, (l[i]).id = id ∧
      (∀ j, ∀ hj : j < l.length, j < i → (l[j]).id ≠ id) ∧
      setCompletedFirst id c l = l.set i { l[i] with completed := c } := by
  intro l
  induction l with
  | nil => intro t h; simp at h
  | cons a as ih =>
    intro t h
    by_cases ha : a.id = id
    · refine ⟨0, by simp, by simpa using ha, ?_, ?_⟩
      · intro j hj hj0
        omega
      · simp [setCompletedFirst, ha]
    · rw [List.find?_cons_of_neg _ (by simpa using ha)] at h
      obtain ⟨i, hi, hid, hbefore, heq⟩ := ih t h
      refine ⟨i + 1, by simpa using hi, by simpa using hid, ?_, ?_⟩
      · intro j hj hji
        cases j with
        | zero => simpa using ha
        | succ k =>
          have hk : k < as.length := by simpa using Nat.lt_of_succ_lt_succ hj
          simpa using hbefore k hk (Nat.lt_of_succ_lt_succ hji)
      · simp [setCompletedFirst, ha, heq]

/-- Claim C10: in Local Mode, `toggleCompleted` on an id not present in the
collection returns the state unchanged (no persistence); on a present id it
replaces the first matching entity by the same entity with only `completed`
changed, leaving every other entity, the length and the insertion order
unchanged. -/
theorem toggleCompleted_frame (id : String) (c ok : Bool) (s : AppState)
    (hm : s.useFirebase = false) :
    ((∀ t ∈ s.todos, t.id ≠ id) → toggleCompleted id c ok s = s) ∧
    (∀ t, s.todos.find? (fun u => u.id = id) = some t →
      ∃ i, ∃ hi : i < s.todos.length,
        (s.todos[i]).id = id ∧
        (∀ j, ∀ hj : j < s.todos.length, j < i → (s.todos[j]).id ≠ id) ∧
        (toggleCompleted id c ok s).todos =
          s.todos.set i { s.todos[i] with completed := c } ∧
        (toggleCompleted id c ok s).todos.length = s.todos.length) := by
  constructor
  · intro h
    have hf : s.todos.find? (fun u => u.id = id) = none := by
      rw [List.find?_eq_none]
      intro x hx
      simpa using h x hx
    simp [toggleCompleted, hm, hf]
  · intro t hf
    obtain ⟨i, hi, hid, hbefore, heq⟩ := setCompletedFirst_eq_set id c s.todos t hf
    refine ⟨i, hi, hid, hbefore, ?_, ?_⟩
    · simp [toggleCompleted, hm, hf, renderTodos, saveTodos, heq]
    · simp [toggleCompleted, hm, hf, renderTodos, saveTodos, heq]

/-- Witness for C10 at a concrete Local Mode state: toggling an absent id
leaves the whole state untouched. -/
theorem toggleCompleted_frame_witness :
    toggleCompleted "zz" true true localState1 = localState1 :=
  (toggleCompleted_frame "zz" true true localState1 rfl).1 (by decide)

/-! ## Id uniqueness invariant (C6) -/

/-- The inductive invariant: the in-memory ids are pairwise distinct, and
the storage entry is absent or holds the serialization of a collection with
pairwise distinct ids. -/
def GoodState (s : AppState) : Prop :=
  (s.todos.map Todo.id).Nodup ∧
  (s.storage = none ∨ ∃ l : List Todo,
    s.storage = some (StoredValue.wellFormed (Json.arr (l.map encodeTodo))) ∧
    (l.map Todo.id).Nodup)

theorem goodState_render (s : AppState) (h : GoodState s) : GoodState (renderTodos s) := by
  simpa [GoodState, renderTodos] using h

theorem goodState_save (s : AppState) (h : GoodState s) : GoodState (saveTodos s) := by
  unfold saveTodos
  split_ifs
  · exact h
  · exact ⟨h.1, Or.inr ⟨s.todos, rfl, h.1⟩⟩

theorem goodState_addTodo (text sel freshId : String) (ok : Bool) (s : AppState)
    (hfresh : freshId ∉ s.todos.map Todo.id) (h : GoodState s) :
    GoodState (addTodo text sel freshId ok s) := by
  by_cases h1 : jsTrim text = ""
  · simpa [addTodo, h1] using h
  · by_cases h2 : (s.useFirebase && ok) = true
    · simpa [addTodo, h1, h2] using h
    · have h2f : (s.useFirebase && ok) = false := by simpa using h2
      have hEq : addTodo text sel freshId ok s =
          renderTodos (saveTodos { s with todos :=
            { id := freshId, text := jsTrim text, completed := false,
              priority := some (if sel = "" then "medium" else sel),
              createdAt := none } :: s.todos }) := by
        simp [addTodo, h1, h2f]
      rw [hEq]
      refine goodState_render _ (goodState_save _ ⟨?_, h.2⟩)
      exact List.nodup_cons.2 ⟨hfresh, h.1⟩

theorem goodState_deleteTodo (id : String) (ok : Bool) (s : AppState) (h : GoodState s) :
    GoodState (deleteTodo id ok s) := by
  unfold deleteTodo
  split_ifs
  · exact h
  · exact ⟨h.1, h.2⟩
  · refine goodState_render _ (goodState_save _ ⟨?_, h.2⟩)
    have hsub : ((s.todos.filter (fun t => t.id ≠ id)).map Todo.id).Sublist
        (s.todos.map Todo.id) :=
      List.Sublist.map Todo.id (List.filter_sublist s.todos)
    exact List.Nodup.sublist hsub h.1

theorem setCompletedFirst_map_id (id : String) (c : Bool) :
    ∀ l : List Todo, (setCompletedFirst id c l).map Todo.id = l.map Todo.id := by
  intro l
  induction l with
  | nil => rfl
  | cons a as ih => by_cases ha : a.id = id <;> simp [setCompletedFirst, ha, ih]

theorem goodState_toggleCompleted (id : String) (c ok : Bool) (s : AppState)
    (h : GoodState s) : GoodState (toggleCompleted id c ok s) := by
  unfold toggleCompleted
  split_ifs
  · exact h
  · exact ⟨h.1, h.2⟩
  · cases hf : s.todos.find? (fun t => t.id = id) with
    | none => exact h
    | some t =>
      refine goodState_render _ (goodState_save _ ⟨?_, h.2⟩)
      show ((setCompletedFirst id c s.todos).map Todo.id).Nodup
      rw [setCompletedFirst_map_id]
      exact h.1

theorem updateFirst_map_id (id trimmed newP : String) :
    ∀ l : List Todo, (updateFirst id trimmed newP l).map Todo.id = l.map Todo.id := by
  intro l
  induction l with
  | nil => rfl
  | cons a as ih => by_cases ha : a.id = id <;> simp [updateFirst, ha, ih]

theorem goodState_commitEdit (id newText newP : String) (ok : Bool) (s : AppState)
    (h : GoodState s) : GoodState (commitEdit id newText newP ok s) := by
  by_cases h1 : jsTrim newText = ""
  · have hEq : commitEdit id newText newP ok s = deleteTodo id ok s := by
      simp [commitEdit, h1]
    rw [hEq]
    exact goodState_deleteTodo id ok s h
  · by_cases h2 : s.useFirebase = true
    · by_cases h3 : ok = true
      · have hEq : commitEdit id newText newP ok s = s := by
          simp [commitEdit, h1, h2, h3]
        rw [hEq]
        exact h
      · have h3f : ok = false := by simpa using h3
        have hEq : commitEdit id newText newP ok s =
            { s with alerts := s.alerts ++ [alertEditFailed] } := by
          simp [commitEdit, h1, h2, h3f]
        rw [hEq]
        exact ⟨h.1, h.2⟩
    · have h2f : s.useFirebase = false := by simpa using h2
      cases hf : s.todos.find? (fun t => t.id = id) with
      | none =>
        have hEq : commitEdit id newText newP ok s = s := by
          simp [commitEdit, h1, h2f, hf]
        rw [hEq]
        exact h
      | some t =>
        have hEq : commitEdit id newText newP ok s =
            renderTodos (saveTodos
              { s with todos := updateFirst id (jsTrim newText) newP s.todos }) := by
          simp [commitEdit, h1, h2f, hf]
        rw [hEq]
        refine goodState_render _ (goodState_save _ ⟨?_, h.2⟩)
        show ((updateFirst id (jsTrim newText) newP s.todos).map Todo.id).Nodup
        rw [updateFirst_map_id]
        exact h.1

theorem goodState_loadTodos (s : AppState) (h : GoodState s) : GoodState (loadTodos s) := by
  unfold loadTodos
  split_ifs
  · exact h
  · refine ⟨?_, h.2⟩
    rcases h.2 with hnone | ⟨l, hl, hln⟩
    · simp [hnone, loadResult, decodeTodos, decodeTodoList]
    · simpa [hl, loadResult, decodeTodos_encode] using hln

theorem goodState_applySnapshot (items : List Todo) (s : AppState)
    (hids : (items.map Todo.id).Nodup) (h : GoodState s) :
    GoodState (applySnapshot items s) := by
  refine goodState_render _ ⟨?_, h.2⟩
  have hperm : ((sortTodos (items.map normalizeSnapshotTodo)).map Todo.id).Perm
      ((items.map normalizeSnapshotTodo).map Todo.id) :=
    (sortTodos_perm (items.map normalizeSnapshotTodo)).map Todo.id
  have hn : ((items.map normalizeSnapshotTodo).map Todo.id) = items.map Todo.id := by
    simp [normalizeSnapshotTodo, Function.comp]
  refine hperm.symm.nodup ?_
  rw [hn]
  exact hids

theorem goodState_startFirebaseMode (s : AppState) (_h : GoodState s) :
    GoodState (startFirebaseMode s) := by
  refine goodState_render _ ⟨?_, Or.inl rfl⟩
  simp

theorem reachable_goodState {s : AppState} (h : Reachable s) : GoodState s := by
  induction h with
  | init => exact ⟨List.nodup_nil, Or.inl rfl⟩
  | add text sel freshId remoteOk hr hfresh ih =>
    exact goodState_addTodo text sel freshId remoteOk _ hfresh ih
  | del id remoteOk hr ih => exact goodState_deleteTodo id remoteOk _ ih
  | toggle id completed remoteOk hr ih => exact goodState_toggleCompleted id completed remoteOk _ ih
  | edit id newText newPriority remoteOk hr ih =>
    exact goodState_commitEdit id newText newPriority remoteOk _ ih
  | load hr ih => exact goodState_loadTodos _ ih
  | snapshot items hr hids ih => exact goodState_applySnapshot items _ hids ih
  | goRemote hr ih => exact goodState_startFirebaseMode _ ih

/-- Claim C6: at every state reachable by add/delete/toggle/commit-edit/
load/remote-snapshot steps (with environment-fresh generated ids and
duplicate-free remote snapshots, as the spec assumes of the id sources),
no two distinct entities of the in-memory collection share an id. -/
theorem reachable_ids_unique {s : AppState} (h : Reachable s) :
    (s.todos.map Todo.id).Nodup :=
  (reachable_goodState h).1

/-- Witness for C6 on a concrete reachable state: start, then one local add. -/
theorem reachable_ids_unique_witness :
    (((addTodo "a" "high" "f1" true initState).todos).map Todo.id).Nodup :=
  reachable_ids_unique (Reachable.add "a" "high" "f1" true Reachable.init (by decide))

end SarahTodo
